import Mathlib

/-!
Shallow embedding of the dynamic namespace registry of
src/dbnode/storage/namespace/dynamic.go.

The registry watches a remote versioned key-value store, validates and
parses each delivered value, and republishes accepted maps to subscribers.
External collaborators (the protobuf parser composed of Unmarshal and
FromProto, the kv store version comparison IsNewer, and the structural map
equality Equal) live outside this fragment; they are modelled as opaque
function parameters gathered in ExternalOps.  The broadcast hub
(xwatch.Watchable) is modelled by the list of values passed to its Update
operation, in call order.  Concurrency is modelled by interleaving: one
loop iteration of dynamicRegistry.run, or one public operation, is a step
on the registry state.
-/

/-- Versioned value handle from the remote kv store: an integer version and
an opaque raw payload token (the payload bytes are never inspected by the
registry itself, only handed to the parser). -/
structure KVValue where
  version : Int
  payload : Nat
deriving DecidableEq, Repr

/-- Errors of the fragment: errInitTimeOut, errRegistryAlreadyClosed and
errInvalidRegistry from dynamic.go, plus the closed-watchable error of the
broadcast hub, a configuration-validation error, and a family of opaque
external errors (kv client or watch-open failures). -/
inductive RegError where
  | initTimeOut
  | registryAlreadyClosed
  | invalidRegistry
  | watchableClosed
  | validationError
  | other (n : Nat)
deriving DecidableEq, Repr

/-- Modelled from the spec: the external collaborators of the registry.
parse is the composite of kv.Value.Unmarshal and FromProto (the Validator,
an opaque external parser per the spec); isNewer is kv.Value.IsNewer, the
store's own versioning comparison; equal is Map.Equal, structural equality
of namespace maps.  None of these is defined in the fragment. -/
structure ExternalOps (M : Type) where
  parse : KVValue → Option M
  isNewer : KVValue → KVValue → Bool
  equal : M → M → Bool

/-- Modelled from the spec: DynamicOptions of the fragment carries an init
timeout and a Validate method; Validate's outcome is modelled as an opaque
boolean since its definition is outside the fragment. -/
structure DynamicOptions where
  initTimeout : Int
  validateOk : Bool
deriving DecidableEq, Repr

/-- Modelled from the spec: the environment a construction call runs in.
kvErr is the error of opts.ConfigServiceClient().KV() if it fails; openErr
is the error of kvStore.Watch(key) if it fails; arrival is the time at
which the first value becomes available on the watch (none if no value
ever arrives); firstValue is that value. -/
structure WatchEnv where
  kvErr : Option RegError
  openErr : Option RegError
  arrival : Option Nat
  firstValue : KVValue
deriving DecidableEq, Repr

/-- Translation of getMapFromUpdate: nil values and parse failures are both
rejected with errInvalidRegistry; otherwise the parsed map is returned. -/
def getMapFromUpdate {M : Type} (env : ExternalOps M) (val : Option KVValue) :
    Except RegError M :=
  match val with
  | none => Except.error RegError.invalidRegistry
  | some v =>
    match env.parse v with
    | none => Except.error RegError.invalidRegistry
    | some m => Except.ok m

/-- Value returned by watch.Get() at a given time: the first value once it
has arrived, nil before that (and nil forever if it never arrives). -/
def watchGetAt (w : WatchEnv) (time : Nat) : Option KVValue :=
  match w.arrival with
  | some t => if t ≤ time then some w.firstValue else none
  | none => none

/-- Translation of waitOnInit: a non-positive duration returns nil at once;
otherwise the select between the watch channel and time.After(d) returns
nil when the value arrives within d, and errInitTimeOut when the timer
fires first.  The second component is the elapsed time, so that the timing
of the timeout is part of the model. -/
def waitOnInit (d : Int) (arrival : Option Nat) : Except RegError Unit × Nat :=
  if d ≤ 0 then (Except.ok (), 0)
  else
    match arrival with
    | none => (Except.error RegError.initTimeOut, d.toNat)
    | some t => if (t : Int) ≤ d then (Except.ok (), t) else (Except.error RegError.initTimeOut, d.toNat)

/-- State of a dynamicRegistry: the fields currentValue, currentMap and
closed of the Go struct, the numInvalidUpdates counter of its metrics, and
published, the list of values passed to watchable.Update in call order
(the broadcast hub's publish history, seeded at construction). -/
structure dynamicRegistry (M : Type) where
  currentValue : KVValue
  currentMap : M
  closed : Bool
  numInvalidUpdates : Nat
  published : List M
deriving DecidableEq, Repr

/-- Translation of dynamicRegistry.isClosed. -/
def dynamicRegistry.isClosed {M : Type} (r : dynamicRegistry M) : Bool :=
  r.closed

/-- Translation of dynamicRegistry.value. -/
def dynamicRegistry.value {M : Type} (r : dynamicRegistry M) : KVValue :=
  r.currentValue

/-- Translation of dynamicRegistry.maps. -/
def dynamicRegistry.maps {M : Type} (r : dynamicRegistry M) : M :=
  r.currentMap

/-- Translation of dynamicRegistry.Close: returns errRegistryAlreadyClosed
when already closed, otherwise sets closed and closes the kv watch and the
watchable (the hub being closed is tracked by the closed flag). -/
def dynamicRegistry.Close {M : Type} (r : dynamicRegistry M) :
    dynamicRegistry M × Option RegError :=
  if r.closed then (r, some RegError.registryAlreadyClosed)
  else ({ r with closed := true }, none)

/-- Translation of dynamicRegistry.Watch, which delegates to
watchable.Watch.  Modelled from the spec for the hub part: Subscribe on a
closed hub fails with a closed error, otherwise the returned subscription
immediately yields the current map (the hub is closed exactly by
dynamicRegistry.Close, so hub-closed coincides with the closed flag). -/
def dynamicRegistry.Watch {M : Type} (r : dynamicRegistry M) : Except RegError M :=
  if r.closed then Except.error RegError.watchableClosed
  else Except.ok r.currentMap

/-- One delivery on the kv watch channel: either the channel is closed by
the remote side, or it fires and watch.Get() then returns latest (nil when
the store has no value). -/
inductive WatchEvent where
  | chanClosed
  | tick (latest : Option KVValue)
deriving DecidableEq, Repr

/-- Translation of one iteration of dynamicRegistry.run: the loop guard
checks isClosed; a closed channel closes the registry and stops; otherwise
the latest value runs through the four rejection checks (nil, not newer,
parse failure, structurally equal map), each bumping numInvalidUpdates and
leaving state untouched; the single success path replaces currentValue and
currentMap together and publishes the new map to the hub. -/
def runStep {M : Type} (env : ExternalOps M) (r : dynamicRegistry M)
    (ev : WatchEvent) : dynamicRegistry M :=
  if r.isClosed then r
  else
    match ev with
    | WatchEvent.chanClosed => (r.Close).1
    | WatchEvent.tick latest =>
      match latest with
      | none => { r with numInvalidUpdates := r.numInvalidUpdates + 1 }
      | some val =>
        if !env.isNewer val r.currentValue then
          { r with numInvalidUpdates := r.numInvalidUpdates + 1 }
        else
          match getMapFromUpdate env (some val) with
          | Except.error _ => { r with numInvalidUpdates := r.numInvalidUpdates + 1 }
          | Except.ok m =>
            if env.equal m r.maps then
              { r with numInvalidUpdates := r.numInvalidUpdates + 1 }
            else
              { r with currentValue := val, currentMap := m,
                       published := r.published ++ [m] }

/-- Iterating the synchronization loop over a sequence of channel events. -/
def runSteps {M : Type} (env : ExternalOps M) (r : dynamicRegistry M)
    (evs : List WatchEvent) : dynamicRegistry M :=
  evs.foldl (runStep env) r

/-- Translation of newDynamicRegistry: obtain the kv client, open the
watch, wait for the first value (waitOnInit), read watch.Get(), parse it
through getMapFromUpdate, seed the watchable with the parsed map, and
return the registry with currentValue and currentMap set from that first
observed value. -/
def newDynamicRegistry {M : Type} (env : ExternalOps M) (w : WatchEnv)
    (opts : DynamicOptions) : Except RegError (dynamicRegistry M) :=
  match w.kvErr with
  | some e => Except.error e
  | none =>
  match w.openErr with
  | some e => Except.error e
  | none =>
  match waitOnInit opts.initTimeout w.arrival with
  | (Except.error e, _) => Except.error e
  | (Except.ok _, elapsed) =>
    match watchGetAt w elapsed with
    | none => Except.error RegError.invalidRegistry
    | some initValue =>
      match getMapFromUpdate env (some initValue) with
      | Except.error e => Except.error e
      | Except.ok m =>
        Except.ok { currentValue := initValue, currentMap := m, closed := false,
                    numInvalidUpdates := 0, published := [m] }

/-- State of a dynamicInitializer: its options and the registry it has
constructed, if any (nil until the first successful Init). -/
structure dynamicInitializer (M : Type) where
  opts : DynamicOptions
  reg : Option (dynamicRegistry M)
deriving DecidableEq, Repr

/-- Translation of NewDynamicInitializer. -/
def NewDynamicInitializer (M : Type) (opts : DynamicOptions) : dynamicInitializer M :=
  { opts := opts, reg := none }

/-- Translation of dynamicInitializer.Init: under the initializer's lock,
return the stored registry if one exists; otherwise validate options, run
newDynamicRegistry, and store the result only on success.  env and w are
the external world of this particular call. -/
def dynamicInitializer.Init {M : Type} (env : ExternalOps M) (w : WatchEnv)
    (i : dynamicInitializer M) :
    dynamicInitializer M × Except RegError (dynamicRegistry M) :=
  match i.reg with
  | some r => (i, Except.ok r)
  | none =>
    if !i.opts.validateOk then (i, Except.error RegError.validationError)
    else
      match newDynamicRegistry env w i.opts with
      | Except.error e => (i, Except.error e)
      | Except.ok r => ({ i with reg := some r }, Except.ok r)

/-- Public operations interleaved with loop iterations, for lifetime
invariants: a loop step on a channel event, or a Close call. -/
inductive RegOp where
  | step (ev : WatchEvent)
  | close
deriving DecidableEq, Repr

/-- Apply one operation to the registry state. -/
def applyOp {M : Type} (env : ExternalOps M) (r : dynamicRegistry M) :
    RegOp → dynamicRegistry M
  | RegOp.step ev => runStep env r ev
  | RegOp.close => (r.Close).1

/-- Apply a sequence of operations. -/
def applyOps {M : Type} (env : ExternalOps M) (r : dynamicRegistry M)
    (ops : List RegOp) : dynamicRegistry M :=
  ops.foldl (applyOp env) r

/-- A sequence of delivered values all of which pass the four rejection
checks, starting from stored value prevV and stored map prevM: each value
is newer than the previously accepted one, parses, and its parsed map is
structurally distinct from the previously accepted map. -/
def allAcceptedB {M : Type} (env : ExternalOps M) :
    KVValue → M → List KVValue → Bool
  | _, _, [] => true
  | prevV, prevM, v :: rest =>
    env.isNewer v prevV &&
      match env.parse v with
      | none => false
      | some m => !env.equal m prevM && allAcceptedB env v m rest

/-- Parsed maps of a sequence of delivered values, in delivery order
(values that fail to parse contribute nothing). -/
def parsedMaps {M : Type} (env : ExternalOps M) : List KVValue → List M
  | [] => []
  | v :: rest =>
    match env.parse v with
    | some m => m :: parsedMaps env rest
    | none => parsedMaps env rest

/-- The four non-fatal rejection conditions of the loop, as a predicate on
the latest delivered value against the current state: nil, not newer than
the stored value, parse failure, or parsed map structurally equal to the
stored map. -/
def rejectsUpdate {M : Type} (env : ExternalOps M) (r : dynamicRegistry M)
    (latest : Option KVValue) : Bool :=
  match latest with
  | none => true
  | some v =>
    !env.isNewer v r.currentValue ||
      (match env.parse v with
       | none => true
       | some m => env.equal m r.currentMap)

/-- Coherence invariant: currentMap is the parse of currentValue, i.e. both
fields derive from the same validated update. -/
def coherent {M : Type} (env : ExternalOps M) (r : dynamicRegistry M) : Prop :=
  env.parse r.currentValue = some r.currentMap

/-- Whether an Except is a success. -/
def exceptIsOk {E A : Type} : Except E A → Bool
  | Except.ok _ => true
  | Except.error _ => false

/-- Concrete instantiation of the external collaborators for witnesses:
maps are natural numbers, parse reads the payload token, isNewer is the
version comparison, equal is equality. -/
def natEnv : ExternalOps Nat :=
  { parse := fun v => some v.payload,
    isNewer := fun v w => decide (w.version < v.version),
    equal := fun a b => a == b }

/-- Sample concrete values for evaluating the model. -/
def valA : KVValue := { version := 1, payload := 10 }

/-- Second sample value, newer and with distinct payload. -/
def valB : KVValue := { version := 2, payload := 20 }

/-- Third sample value, newer still. -/
def valC : KVValue := { version := 3, payload := 30 }

/-- Watch environment whose first value is already present at time 0. -/
def goodWatch : WatchEnv :=
  { kvErr := none, openErr := none, arrival := some 0, firstValue := valA }

/-- Watch environment on which no value ever arrives. -/
def noValueWatch : WatchEnv :=
  { kvErr := none, openErr := none, arrival := none, firstValue := valA }

/-- Options with a strictly positive init timeout. -/
def posOpts : DynamicOptions := { initTimeout := 5, validateOk := true }

/-- Options with a zero init timeout. -/
def zeroOpts : DynamicOptions := { initTimeout := 0, validateOk := true }

/-- The registry state produced by a successful construction from valA. -/
def reg0 : dynamicRegistry Nat :=
  { currentValue := valA, currentMap := 10, closed := false,
    numInvalidUpdates := 0, published := [10] }

/-- A closed registry state, for exercising the closed-flag lemmas. -/
def closedReg : dynamicRegistry Nat := { reg0 with closed := true }

/-- Helper: every operation on a closed registry leaves the state
unchanged (the loop guard skips the iteration, Close returns the
already-closed error without mutating). -/
theorem applyOp_of_closed {M : Type} (env : ExternalOps M) (r : dynamicRegistry M)
    (op : RegOp) (h : r.closed = true) : applyOp env r op = r := by
  cases op with
  | close => simp [applyOp, dynamicRegistry.Close, h]
  | step ev => simp [applyOp, runStep, dynamicRegistry.isClosed, h]

/-- Helper: a loop iteration whose latest value trips one of the four
rejection checks only bumps the invalid-update counter. -/
theorem runStep_reject {M : Type} (env : ExternalOps M) (r : dynamicRegistry M)
    (latest : Option KVValue) (hc : r.closed = false)
    (hrej : rejectsUpdate env r latest = true) :
    runStep env r (WatchEvent.tick latest)
      = { r with numInvalidUpdates := r.numInvalidUpdates + 1 } := by
  cases latest with
  | none => simp [runStep, dynamicRegistry.isClosed, hc]
  | some v =>
    by_cases hn : env.isNewer v r.currentValue
    · cases hp : env.parse v with
      | none =>
        simp [runStep, dynamicRegistry.isClosed, hc, hn, getMapFromUpdate, hp]
      | some m =>
        have he : env.equal m r.currentMap = true := by
          simpa [rejectsUpdate, hn, hp] using hrej
        simp [runStep, dynamicRegistry.isClosed, hc, hn, getMapFromUpdate, hp,
              dynamicRegistry.maps, he]
    · have hn2 : env.isNewer v r.currentValue = false := Bool.eq_false_iff.mpr hn
      simp [runStep, dynamicRegistry.isClosed, hc, hn2]

/-- Helper: a loop iteration whose latest value passes all four checks
replaces currentValue and currentMap together and publishes the new map. -/
theorem runStep_accept {M : Type} (env : ExternalOps M) (r : dynamicRegistry M)
    (v : KVValue) (m : M) (hc : r.closed = false)
    (hn : env.isNewer v r.currentValue = true)
    (hp : env.parse v = some m) (he : env.equal m r.currentMap = false) :
    runStep env r (WatchEvent.tick (some v))
      = { r with currentValue := v, currentMap := m,
                 published := r.published ++ [m] } := by
  simp [runStep, dynamicRegistry.isClosed, hc, hn, getMapFromUpdate, hp,
        dynamicRegistry.maps, he]

/-- Helper: shape of a successfully constructed registry — it starts open
with a zeroed invalid-update counter, its currentMap is the parse of its
currentValue, and the hub was seeded with exactly that map. -/
theorem newDynamicRegistry_ok {M : Type} (env : ExternalOps M) (w : WatchEnv)
    (opts : DynamicOptions) (r : dynamicRegistry M)
    (h : newDynamicRegistry env w opts = Except.ok r) :
    r.closed = false ∧ r.numInvalidUpdates = 0 ∧
    env.parse r.currentValue = some r.currentMap ∧
    r.published = [r.currentMap] := by
  unfold newDynamicRegistry at h
  cases hk : w.kvErr with
  | some e => rw [hk] at h; exact absurd h (by simp)
  | none =>
  simp only [hk] at h
  cases ho : w.openErr with
  | some e => rw [ho] at h; exact absurd h (by simp)
  | none =>
  simp only [ho] at h
  rcases hw : waitOnInit opts.initTimeout w.arrival with ⟨res, elapsed⟩
  simp only [hw] at h
  cases res with
  | error e => simp at h
  | ok u =>
  cases hg : watchGetAt w elapsed with
  | none => simp only [hg] at h; exact absurd h (by simp)
  | some initValue =>
  simp only [hg] at h
  cases hp : env.parse initValue with
  | none => simp only [getMapFromUpdate, hp] at h; exact absurd h (by simp)
  | some m =>
  simp only [getMapFromUpdate, hp] at h
  injection h with h2
  subst h2
  exact ⟨rfl, rfl, by simpa using hp, rfl⟩

/-- C8: the first Close on a registry returns nil and marks it closed;
a second Close returns the already-closed error without changing state,
and a Watch (Subscribe) after Close fails with the closed error instead
of yielding a live subscription. -/
theorem close_once_then_again {M : Type} (r : dynamicRegistry M)
    (h : r.closed = false) :
    (r.Close).2 = none ∧
    (r.Close).1.closed = true ∧
    ((r.Close).1.Close).2 = some RegError.registryAlreadyClosed ∧
    ((r.Close).1.Close).1 = (r.Close).1 ∧
    (r.Close).1.Watch = Except.error RegError.watchableClosed := by
  simp [dynamicRegistry.Close, dynamicRegistry.Watch, h]

/-- Witness for close_once_then_again at the sample registry reg0. -/
theorem close_once_then_again_witness :
    (reg0.Close).2 = none ∧
    (reg0.Close).1.closed = true ∧
    ((reg0.Close).1.Close).2 = some RegError.registryAlreadyClosed ∧
    ((reg0.Close).1.Close).1 = (reg0.Close).1 ∧
    (reg0.Close).1.Watch = Except.error RegError.watchableClosed :=
  close_once_then_again reg0 rfl

/-- C10: the closed flag starts false at construction, is monotone under
every operation (loop iterations and Close calls), and the only operations
that can turn it true are Close and the channel-closed loop branch, which
itself calls Close; hence once isClosed observes true it stays true. -/
theorem closed_flag_monotone {M : Type} (env : ExternalOps M) :
    (∀ (w : WatchEnv) (opts : DynamicOptions) (r : dynamicRegistry M),
       newDynamicRegistry env w opts = Except.ok r → r.closed = false) ∧
    (∀ (r : dynamicRegistry M) (ops : List RegOp),
       r.closed = true → (applyOps env r ops).closed = true) ∧
    (∀ (r : dynamicRegistry M) (op : RegOp),
       r.closed = false → (applyOp env r op).closed = true →
       op = RegOp.close ∨ op = RegOp.step WatchEvent.chanClosed) := by
  refine ⟨?_, ?_, ?_⟩
  · intro w opts r h
    exact (newDynamicRegistry_ok env w opts r h).1
  · intro r ops h
    induction ops generalizing r with
    | nil => simpa [applyOps] using h
    | cons op rest ih =>
      have hstep : applyOp env r op = r := applyOp_of_closed env r op h
      show (applyOps env (applyOp env r op) rest).closed = true
      rw [hstep]
      exact ih r h
  · intro r op h1 h2
    cases op with
    | close => exact Or.inl rfl
    | step ev =>
      cases ev with
      | chanClosed => exact Or.inr rfl
      | tick latest =>
        exfalso
        cases latest with
        | none => simp [applyOp, runStep, dynamicRegistry.isClosed, h1] at h2
        | some v =>
          by_cases hn : env.isNewer v r.currentValue
          · cases hp : env.parse v with
            | none =>
              simp [applyOp, runStep, dynamicRegistry.isClosed, h1, hn,
                    getMapFromUpdate, hp] at h2
            | some m =>
              by_cases he : env.equal m r.currentMap
              · simp [applyOp, runStep, dynamicRegistry.isClosed, h1, hn,
                      getMapFromUpdate, hp, dynamicRegistry.maps, he] at h2
              · have he2 : env.equal m r.currentMap = false := Bool.eq_false_iff.mpr he
                simp [applyOp, runStep, dynamicRegistry.isClosed, h1, hn,
                      getMapFromUpdate, hp, dynamicRegistry.maps, he2] at h2
          · have hn2 : env.isNewer v r.currentValue = false := Bool.eq_false_iff.mpr hn
            simp [applyOp, runStep, dynamicRegistry.isClosed, h1, hn2] at h2

/-- Witness for closed_flag_monotone: the constructed registry starts
open, a closed registry stays closed under further operations, and the
step that closed it is a Close. -/
theorem closed_flag_monotone_witness :
    reg0.closed = false ∧
    (applyOps natEnv closedReg
       [RegOp.step (WatchEvent.tick none), RegOp.close]).closed = true ∧
    (RegOp.close = RegOp.close ∨ RegOp.close = RegOp.step WatchEvent.chanClosed) :=
  ⟨(closed_flag_monotone natEnv).1 goodWatch posOpts reg0 rfl,
   (closed_flag_monotone natEnv).2.1 closedReg
     [RegOp.step (WatchEvent.tick none), RegOp.close] rfl,
   (closed_flag_monotone natEnv).2.2 reg0 RegOp.close rfl
     (by simp [applyOp, dynamicRegistry.Close, reg0])⟩

/-- A fresh initializer over posOpts, with no registry constructed yet. -/
def initFresh : dynamicInitializer Nat := NewDynamicInitializer Nat posOpts

/-- C6: once a first Init call has returned a registry successfully, every
subsequent Init call on the same initializer returns that exact registry
with a nil error, regardless of the external world of the later call (so
no re-validation and no new remote watch happens). -/
theorem init_idempotent {M : Type} (env env2 : ExternalOps M) (w w2 : WatchEnv)
    (i : dynamicInitializer M) (r : dynamicRegistry M)
    (h : (dynamicInitializer.Init env w i).2 = Except.ok r) :
    dynamicInitializer.Init env2 w2 (dynamicInitializer.Init env w i).1
      = ((dynamicInitializer.Init env w i).1, Except.ok r) := by
  cases hr : i.reg with
  | some r0 =>
    have h1 : dynamicInitializer.Init env w i = (i, Except.ok r0) := by
      unfold dynamicInitializer.Init
      rw [hr]
    rw [h1] at h
    simp at h
    subst h
    rw [h1]
    show dynamicInitializer.Init env2 w2 i = (i, Except.ok r0)
    unfold dynamicInitializer.Init
    rw [hr]
  | none =>
    unfold dynamicInitializer.Init at h
    rw [hr] at h
    by_cases hv : i.opts.validateOk
    · simp only [hv, Bool.not_true, Bool.false_eq_true, if_false] at h
      cases hc : newDynamicRegistry env w i.opts with
      | error e => rw [hc] at h; simp at h
      | ok r1 =>
        rw [hc] at h
        simp at h
        subst h
        have h1 : dynamicInitializer.Init env w i
            = ({ i with reg := some r1 }, Except.ok r1) := by
          unfold dynamicInitializer.Init
          rw [hr]
          simp only [hv, Bool.not_true, Bool.false_eq_true, if_false]
          rw [hc]
        rw [h1]
        show dynamicInitializer.Init env2 w2 { i with reg := some r1 }
            = ({ i with reg := some r1 }, Except.ok r1)
        unfold dynamicInitializer.Init
        rfl
    · have hv2 : i.opts.validateOk = false := Bool.eq_false_iff.mpr hv
      rw [hv2] at h
      simp at h

/-- Witness for init_idempotent: after a successful first Init, a second
Init in a world where construction would fail still returns the same
registry. -/
theorem init_idempotent_witness :
    dynamicInitializer.Init natEnv noValueWatch
        (dynamicInitializer.Init natEnv goodWatch initFresh).1
      = ((dynamicInitializer.Init natEnv goodWatch initFresh).1, Except.ok reg0) :=
  init_idempotent natEnv natEnv goodWatch noValueWatch initFresh reg0 rfl

/-- C9: a failed Init does not poison the initializer: when Init returns
an error and no registry was stored before, the stored registry stays
unset and a later Init call behaves exactly like a fresh attempt. -/
theorem failed_init_not_poisoned {M : Type} (env : ExternalOps M) (w : WatchEnv)
    (i : dynamicInitializer M) (e : RegError)
    (h0 : i.reg = none)
    (h : (dynamicInitializer.Init env w i).2 = Except.error e) :
    (dynamicInitializer.Init env w i).1 = i ∧
    (dynamicInitializer.Init env w i).1.reg = none ∧
    ∀ (env2 : ExternalOps M) (w2 : WatchEnv),
      dynamicInitializer.Init env2 w2 ((dynamicInitializer.Init env w i).1)
        = dynamicInitializer.Init env2 w2 i := by
  have h1 : (dynamicInitializer.Init env w i).1 = i := by
    unfold dynamicInitializer.Init at h ⊢
    rw [h0] at h ⊢
    by_cases hv : i.opts.validateOk
    · simp only [hv, Bool.not_true, Bool.false_eq_true, if_false] at h ⊢
      cases hc : newDynamicRegistry env w i.opts with
      | error e2 => rfl
      | ok r1 => rw [hc] at h; simp at h
    · have hv2 : i.opts.validateOk = false := Bool.eq_false_iff.mpr hv
      simp [hv2]
  exact ⟨h1, by rw [h1]; exact h0, fun env2 w2 => by rw [h1]⟩

/-- Witness for failed_init_not_poisoned: an Init attempt that times out
waiting for the first value leaves the initializer with no stored
registry. -/
theorem failed_init_not_poisoned_witness :
    (dynamicInitializer.Init natEnv noValueWatch initFresh).1 = initFresh ∧
    (dynamicInitializer.Init natEnv noValueWatch initFresh).1.reg = none :=
  ⟨(failed_init_not_poisoned natEnv noValueWatch initFresh
      RegError.initTimeOut rfl rfl).1,
   (failed_init_not_poisoned natEnv noValueWatch initFresh
      RegError.initTimeOut rfl rfl).2.1⟩

/-- C7: with a strictly positive init timeout and no value ever arriving
on the watch, construction fails synchronously with errInitTimeOut, the
wait lasting exactly the configured duration, and that error is distinct
from the configuration, parse and lifecycle errors. -/
theorem init_timeout_error {M : Type} (env : ExternalOps M) (w : WatchEnv)
    (opts : DynamicOptions) (hk : w.kvErr = none) (ho : w.openErr = none)
    (hd : 0 < opts.initTimeout) (ha : w.arrival = none) :
    newDynamicRegistry env w opts = Except.error RegError.initTimeOut ∧
    waitOnInit opts.initTimeout w.arrival
      = (Except.error RegError.initTimeOut, opts.initTimeout.toNat) ∧
    RegError.initTimeOut ≠ RegError.invalidRegistry ∧
    RegError.initTimeOut ≠ RegError.validationError ∧
    RegError.initTimeOut ≠ RegError.registryAlreadyClosed ∧
    RegError.initTimeOut ≠ RegError.watchableClosed := by
  have hw : waitOnInit opts.initTimeout w.arrival
      = (Except.error RegError.initTimeOut, opts.initTimeout.toNat) := by
    unfold waitOnInit
    rw [ha, if_neg (not_le.mpr hd)]
  refine ⟨?_, hw, by simp, by simp, by simp, by simp⟩
  unfold newDynamicRegistry
  simp only [hk, ho, hw]

/-- Witness for init_timeout_error at a concrete positive timeout and a
watch on which no value arrives. -/
theorem init_timeout_error_witness :
    newDynamicRegistry natEnv noValueWatch posOpts
      = Except.error RegError.initTimeOut :=
  (init_timeout_error natEnv noValueWatch posOpts rfl rfl (by decide) rfl).1

/-- C2 counterexample: with init timeout zero and no value yet arrived on
the watch, registry construction does not return a running registry that
picks the first value up later; watch.Get() is nil, getMapFromUpdate
rejects it, and construction fails with errInvalidRegistry. -/
theorem zero_timeout_counterexample :
    newDynamicRegistry natEnv noValueWatch zeroOpts
      = Except.error RegError.invalidRegistry ∧
    exceptIsOk (newDynamicRegistry natEnv noValueWatch zeroOpts) = false :=
  ⟨rfl, rfl⟩

/-- C2 amended: with a non-positive init timeout waitOnInit does return
immediately without waiting, but construction does not let the initial
value arrive later through the loop: it immediately reads the watch's
current value, failing with errInvalidRegistry when none is present yet,
and returning a registry seeded from the current value only when a
parsable value is already there. -/
theorem zero_timeout_no_wait {M : Type} (env : ExternalOps M) (w : WatchEnv)
    (opts : DynamicOptions) (hk : w.kvErr = none) (ho : w.openErr = none)
    (hd : opts.initTimeout ≤ 0) :
    waitOnInit opts.initTimeout w.arrival = (Except.ok (), 0) ∧
    (watchGetAt w 0 = none →
       newDynamicRegistry env w opts = Except.error RegError.invalidRegistry) ∧
    (∀ (v : KVValue) (m : M), watchGetAt w 0 = some v → env.parse v = some m →
       newDynamicRegistry env w opts
         = Except.ok { currentValue := v, currentMap := m, closed := false,
                       numInvalidUpdates := 0, published := [m] }) := by
  have hw : waitOnInit opts.initTimeout w.arrival = (Except.ok (), 0) := by
    unfold waitOnInit
    rw [if_pos hd]
  refine ⟨hw, ?_, ?_⟩
  · intro hg
    unfold newDynamicRegistry
    simp only [hk, ho, hw, hg]
  · intro v m hg hp
    unfold newDynamicRegistry
    simp only [hk, ho, hw, hg, getMapFromUpdate, hp]

/-- Witness for zero_timeout_no_wait: with a zero timeout and a value
already present at construction time, the registry is returned at once,
seeded from that value. -/
theorem zero_timeout_no_wait_witness :
    newDynamicRegistry natEnv goodWatch zeroOpts
      = Except.ok { currentValue := valA, currentMap := 10, closed := false,
                    numInvalidUpdates := 0, published := [10] } :=
  (zero_timeout_no_wait natEnv goodWatch zeroOpts rfl rfl (by decide)).2.2
    valA 10 rfl rfl

/-- C3: a steady-state update that trips any of the four non-fatal
rejection conditions (nil value, not newer, parse failure, structurally
equal map) leaves currentValue, currentMap and the published sequence
unchanged, increments numInvalidUpdates by exactly one, and leaves the
registry open so the loop keeps running. -/
theorem rejected_update_counted_only {M : Type} (env : ExternalOps M)
    (r : dynamicRegistry M) (latest : Option KVValue)
    (hc : r.closed = false) (hrej : rejectsUpdate env r latest = true) :
    runStep env r (WatchEvent.tick latest)
      = { r with numInvalidUpdates := r.numInvalidUpdates + 1 } ∧
    (runStep env r (WatchEvent.tick latest)).currentValue = r.currentValue ∧
    (runStep env r (WatchEvent.tick latest)).currentMap = r.currentMap ∧
    (runStep env r (WatchEvent.tick latest)).published = r.published ∧
    (runStep env r (WatchEvent.tick latest)).numInvalidUpdates
      = r.numInvalidUpdates + 1 ∧
    (runStep env r (WatchEvent.tick latest)).closed = false := by
  have key := runStep_reject env r latest hc hrej
  rw [key]
  exact ⟨rfl, rfl, rfl, rfl, rfl, hc⟩

/-- Witness for rejected_update_counted_only: redelivering the stored
value (same version, hence not newer) only bumps the counter. -/
theorem rejected_update_counted_only_witness :
    runStep natEnv reg0 (WatchEvent.tick (some valA))
      = { reg0 with numInvalidUpdates := reg0.numInvalidUpdates + 1 } ∧
    (runStep natEnv reg0 (WatchEvent.tick (some valA))).currentValue
      = reg0.currentValue ∧
    (runStep natEnv reg0 (WatchEvent.tick (some valA))).currentMap
      = reg0.currentMap ∧
    (runStep natEnv reg0 (WatchEvent.tick (some valA))).published
      = reg0.published ∧
    (runStep natEnv reg0 (WatchEvent.tick (some valA))).numInvalidUpdates
      = reg0.numInvalidUpdates + 1 ∧
    (runStep natEnv reg0 (WatchEvent.tick (some valA))).closed = false :=
  rejected_update_counted_only natEnv reg0 (some valA) rfl rfl

/-- C5: currentValue and currentMap always derive from the same validated
update: construction establishes that currentMap is the parse of
currentValue, the loop's single success path replaces them together
preserving it, Close preserves it, and no other operation mutates either
field. -/
theorem current_pair_coherent {M : Type} (env : ExternalOps M) :
    (∀ (w : WatchEnv) (opts : DynamicOptions) (r : dynamicRegistry M),
       newDynamicRegistry env w opts = Except.ok r → coherent env r) ∧
    (∀ (r : dynamicRegistry M) (op : RegOp),
       coherent env r → coherent env (applyOp env r op)) := by
  constructor
  · intro w opts r h
    exact (newDynamicRegistry_ok env w opts r h).2.2.1
  · intro r op hcoh
    cases op with
    | close =>
      by_cases hc : r.closed
      · simpa [applyOp, dynamicRegistry.Close, hc] using hcoh
      · have hc2 : r.closed = false := Bool.eq_false_iff.mpr hc
        simpa [applyOp, dynamicRegistry.Close, hc2, coherent] using hcoh
    | step ev =>
      by_cases hc : r.closed
      · simpa [applyOp, runStep, dynamicRegistry.isClosed, hc] using hcoh
      · have hc2 : r.closed = false := Bool.eq_false_iff.mpr hc
        cases ev with
        | chanClosed =>
          simpa [applyOp, runStep, dynamicRegistry.isClosed, hc2,
                 dynamicRegistry.Close, coherent] using hcoh
        | tick latest =>
          by_cases hrej : rejectsUpdate env r latest
          · have key := runStep_reject env r latest hc2 hrej
            simpa [applyOp, key, coherent] using hcoh
          · cases latest with
            | none => simp [rejectsUpdate] at hrej
            | some v =>
              have hrej2 : rejectsUpdate env r (some v) = false :=
                Bool.eq_false_iff.mpr hrej
              simp only [rejectsUpdate, Bool.or_eq_false_iff,
                         Bool.not_eq_false] at hrej2
              obtain ⟨hn, hrest⟩ := hrej2
              have hn2 : env.isNewer v r.currentValue = true := by
                simpa using hn
              cases hp : env.parse v with
              | none => rw [hp] at hrest; simp at hrest
              | some m =>
                rw [hp] at hrest
                have key := runStep_accept env r v m hc2 hn2 hp hrest
                simp [applyOp, key, coherent, hp]

/-- Witness for current_pair_coherent: the constructed sample registry is
coherent, and stays coherent across a loop step. -/
theorem current_pair_coherent_witness :
    coherent natEnv reg0 ∧
    coherent natEnv (applyOp natEnv reg0 (RegOp.step (WatchEvent.tick (some valB)))) :=
  ⟨(current_pair_coherent natEnv).1 goodWatch posOpts reg0 rfl,
   (current_pair_coherent natEnv).2 reg0 (RegOp.step (WatchEvent.tick (some valB))) rfl⟩

/-- C4: when isNewer is the store's version comparison, every loop step
either leaves the stored value and the published sequence untouched, or
strictly increases the stored version while publishing exactly the new
map; consequently the stored version never decreases over any sequence of
loop iterations, so no subscriber is handed a map derived from a version
older than one already delivered. -/
theorem version_strictly_increasing {M : Type} (env : ExternalOps M)
    (hN : ∀ (v w2 : KVValue), env.isNewer v w2 = decide (w2.version < v.version)) :
    (∀ (r : dynamicRegistry M) (ev : WatchEvent),
       ((runStep env r ev).currentValue = r.currentValue ∧
        (runStep env r ev).published = r.published) ∨
       (r.currentValue.version < (runStep env r ev).currentValue.version ∧
        (runStep env r ev).published
          = r.published ++ [(runStep env r ev).currentMap])) ∧
    (∀ (r : dynamicRegistry M) (evs : List WatchEvent),
       r.currentValue.version ≤ (runSteps env r evs).currentValue.version) := by
  have step : ∀ (r : dynamicRegistry M) (ev : WatchEvent),
      ((runStep env r ev).currentValue = r.currentValue ∧
       (runStep env r ev).published = r.published) ∨
      (r.currentValue.version < (runStep env r ev).currentValue.version ∧
       (runStep env r ev).published
         = r.published ++ [(runStep env r ev).currentMap]) := by
    intro r ev
    by_cases hc : r.closed
    · left
      simp [runStep, dynamicRegistry.isClosed, hc]
    · have hc2 : r.closed = false := Bool.eq_false_iff.mpr hc
      cases ev with
      | chanClosed =>
        left
        simp [runStep, dynamicRegistry.isClosed, hc2, dynamicRegistry.Close]
      | tick latest =>
        by_cases hrej : rejectsUpdate env r latest
        · left
          have key := runStep_reject env r latest hc2 hrej
          rw [key]
          exact ⟨rfl, rfl⟩
        · cases latest with
          | none => simp [rejectsUpdate] at hrej
          | some v =>
            have hrej2 : rejectsUpdate env r (some v) = false :=
              Bool.eq_false_iff.mpr hrej
            simp only [rejectsUpdate, Bool.or_eq_false_iff,
                       Bool.not_eq_false] at hrej2
            obtain ⟨hn, hrest⟩ := hrej2
            have hn2 : env.isNewer v r.currentValue = true := by
              simpa using hn
            cases hp : env.parse v with
            | none => rw [hp] at hrest; simp at hrest
            | some m =>
              rw [hp] at hrest
              have key := runStep_accept env r v m hc2 hn2 hp hrest
              right
              rw [key]
              refine ⟨?_, rfl⟩
              have hcmp := hN v r.currentValue
              rw [hn2] at hcmp
              exact of_decide_eq_true hcmp.symm
  refine ⟨step, ?_⟩
  intro r evs
  induction evs generalizing r with
  | nil => exact le_refl _
  | cons ev rest ih =>
    have h1 : r.currentValue.version ≤ (runStep env r ev).currentValue.version := by
      rcases step r ev with ⟨he, _⟩ | ⟨hlt, _⟩
      · exact le_of_eq (congrArg KVValue.version he).symm
      · exact le_of_lt hlt
    exact le_trans h1 (ih (runStep env r ev))

/-- Witness for version_strictly_increasing: the stored version does not
decrease across a loop iteration that delivers a newer value. -/
theorem version_strictly_increasing_witness :
    reg0.currentValue.version
      ≤ (runSteps natEnv reg0 [WatchEvent.tick (some valB)]).currentValue.version :=
  (version_strictly_increasing natEnv (fun _ _ => rfl)).2 reg0
    [WatchEvent.tick (some valB)]

/-- C1: over any sequence of delivered values that all pass the four
rejection checks (each newer than the previously accepted value, each
parsing to a map structurally distinct from the previously accepted map),
the sequence the loop publishes to the broadcast hub, hence to every
subscriber, is exactly the sequence of parsed maps in delivery order —
nothing reordered, skipped or duplicated by the registry. -/
theorem subscribers_see_exact_sequence {M : Type} (env : ExternalOps M)
    (r : dynamicRegistry M) (vs : List KVValue)
    (hc : r.closed = false)
    (hacc : allAcceptedB env r.currentValue r.currentMap vs = true) :
    (runSteps env r (vs.map (fun x => WatchEvent.tick (some x)))).published
      = r.published ++ parsedMaps env vs := by
  induction vs generalizing r with
  | nil => simp [runSteps, parsedMaps]
  | cons v rest ih =>
    simp only [allAcceptedB, Bool.and_eq_true] at hacc
    obtain ⟨hn, hrest⟩ := hacc
    cases hp : env.parse v with
    | none => simp [hp] at hrest
    | some m =>
      simp only [hp, Bool.and_eq_true] at hrest
      obtain ⟨hne, hacc2⟩ := hrest
      have he : env.equal m r.currentMap = false := by simpa using hne
      have key := runStep_accept env r v m hc hn hp he
      show (runSteps env (runStep env r (WatchEvent.tick (some v)))
              (rest.map (fun x => WatchEvent.tick (some x)))).published
          = r.published ++ parsedMaps env (v :: rest)
      rw [key]
      have ihr := ih
        { currentValue := v, currentMap := m, closed := r.closed,
          numInvalidUpdates := r.numInvalidUpdates,
          published := r.published ++ [m] } hc hacc2
      rw [ihr]
      simp [parsedMaps, hp]

/-- Witness for subscribers_see_exact_sequence: delivering valB then valC
to the sample registry publishes exactly their parsed maps in order. -/
theorem subscribers_see_exact_sequence_witness :
    (runSteps natEnv reg0
        ([valB, valC].map (fun x => WatchEvent.tick (some x)))).published
      = reg0.published ++ parsedMaps natEnv [valB, valC] :=
  subscribers_see_exact_sequence natEnv reg0 [valB, valC] rfl rfl
